import Mathlib

/-!
Verification development for the "Hoos Who?" chat application (`app.py`).

The functional core of the application is shallowly embedded here:
text is modelled as `List Char` (a Python `str`), timestamps as `Int`
(seconds; the code compares `datetime` differences against one hour,
i.e. 3600 seconds), the tabular student data as a list of records,
and the external chat-completion endpoint as an oracle function
supplied as a parameter.  Streamlit's `st.stop()` is modelled as a
propagating exception (`Except.error`), which is what `st.stop` does
at runtime; mutation of `st.session_state` is modelled by explicit
state passing.
-/

/-- Boolean test that `pat` is a prefix of `s` (character lists). -/
def leadsWith : List Char → List Char → Bool
  | [], _ => true
  | _ :: _, [] => false
  | p :: ps, c :: cs => p == c && leadsWith ps cs

/-- Boolean test that `pat` occurs as a contiguous substring of `s`
(Python's `pat in s`). -/
def containsSub (pat : List Char) : List Char → Bool
  | [] => leadsWith pat []
  | c :: rest => leadsWith pat (c :: rest) || containsSub pat rest

/-- Fuel-indexed engine for Python's `s.replace(pat, '')`: scan left to
right, and at each position either drop a match of `pat` whole or keep
one character.  Each step consumes at least one character of `s`, so
fuel `s.length` computes the exact replace semantics. -/
def removeAllF (pat : List Char) : Nat → List Char → List Char
  | _, [] => []
  | 0, s => s
  | n + 1, c :: rest =>
    if leadsWith pat (c :: rest) then removeAllF pat n (rest.drop (pat.length - 1))
    else c :: removeAllF pat n rest

/-- Python's `s.replace(pat, '')` for a non-empty pattern: remove every
(left-to-right, non-overlapping) occurrence of `pat` from `s`. -/
def removeAll (pat s : List Char) : List Char :=
  removeAllF pat s.length s

/-- The fixed denylist `dangerous_patterns` from `sanitize_input`. -/
def dangerous_patterns : List (List Char) :=
  ["<script>".toList, "javascript:".toList, "onerror=".toList, "onclick=".toList,
   "DROP TABLE".toList, "DELETE FROM".toList, "INSERT INTO".toList, "SELECT *".toList,
   "<iframe>".toList, "eval(".toList, "document.cookie".toList]

/-- One iteration of the sanitizer's loop body: remove `pat`, then
`pat.lower()`, then `pat.upper()`, in that order (the three sequential
`replace` calls in `sanitize_input`). -/
def apply_pattern (s pat : List Char) : List Char :=
  removeAll (pat.map Char.toUpper) (removeAll (pat.map Char.toLower) (removeAll pat s))

/-- A Python value passed to `sanitize_input`: either a `str` or some
non-string value (`None`, a number, ...). -/
inductive PyInput where
  | pystr (s : List Char)
  | nonstring
deriving DecidableEq

/-- The sanitizer `sanitize_input`: empty or non-string input yields the
empty string; otherwise every denylisted pattern is removed in its
as-written, lowercased and uppercased forms, and the result is truncated
to 500 characters (`sanitized[:500]`). -/
def sanitize_input : PyInput → List Char
  | .nonstring => []
  | .pystr s => if s.isEmpty then [] else (dangerous_patterns.foldl apply_pattern s).take 500

/-- The pruning step of `check_rate_limit`: keep the timestamps `t` with
`current_time - t < timedelta(hours=1)`. -/
def prune_times (now : Int) (times : List Int) : List Int :=
  times.filter (fun t => decide (now - t < 3600))

/-- The rate limiter `check_rate_limit`.  Input: the current time and the
session's `query_times` list; output: the returned Bool and the new
`query_times` stored in the session state.  The list is first pruned to
the last hour; if 20 or more entries remain the attempt is rejected,
otherwise the current time is appended and the attempt accepted. -/
def check_rate_limit (now : Int) (times : List Int) : Bool × List Int :=
  if 20 ≤ (prune_times now times).length then (false, prune_times now times)
  else (true, prune_times now times ++ [now])

/-- The timestamp list stored in a session after a sequence of
rate-limiter calls, starting from the fresh (empty) session state. -/
def run_attempts (attempts : List Int) : List Int :=
  attempts.foldl (fun ts t => (check_rate_limit t ts).2) []

/-- One row of `student_data.csv` (a record of
`student_data.to_dict('records')`); all fields are strings. -/
structure StudentRecord where
  name : List Char
  current_company : List Char
  current_role : List Char
  past_companies : List Char
  industries : List Char
  contact : List Char
deriving DecidableEq

/-- Hexadecimal digit character (lowercase), as used by `json.dumps`
unicode escapes. -/
def hexDigit (n : Nat) : Char :=
  if n < 10 then Char.ofNat (48 + n) else Char.ofNat (87 + n)

/-- Four-digit hexadecimal rendering of `n` (for `\uXXXX` escapes). -/
def hex4 (n : Nat) : List Char :=
  [hexDigit (n / 4096 % 16), hexDigit (n / 256 % 16), hexDigit (n / 16 % 16), hexDigit (n % 16)]

/-- Escaping of one character inside a JSON string literal, following
`json.dumps` with its default `ensure_ascii=True`. -/
def json_escape_char (c : Char) : List Char :=
  let n := c.toNat
  if c = '"' then ['\\', '"']
  else if c = '\\' then ['\\', '\\']
  else if c = '\n' then ['\\', 'n']
  else if c = '\t' then ['\\', 't']
  else if c = '\r' then ['\\', 'r']
  else if n = 8 then ['\\', 'b']
  else if n = 12 then ['\\', 'f']
  else if n < 32 then '\\' :: 'u' :: hex4 n
  else if n < 128 then [c]
  else if n < 65536 then '\\' :: 'u' :: hex4 n
  else ('\\' :: 'u' :: hex4 (55296 + (n - 65536) / 1024)) ++ ('\\' :: 'u' :: hex4 (56320 + (n - 65536) % 1024))

/-- A JSON string literal for `s`. -/
def json_string (s : List Char) : List Char :=
  '"' :: (s.map json_escape_char).flatten ++ ['"']

/-- Opening brace character of a JSON object. -/
def lbrace : Char := Char.ofNat 123

/-- Closing brace character of a JSON object. -/
def rbrace : Char := Char.ofNat 125

/-- Newline followed by two spaces (indent level 1 of `json.dumps(...,
indent=2)`). -/
def nl2 : List Char := ['\n', ' ', ' ']

/-- Newline followed by four spaces (indent level 2 of `json.dumps(...,
indent=2)`). -/
def nl4 : List Char := ['\n', ' ', ' ', ' ', ' ']

/-- One `"key": "value"` member of a serialized record. -/
def dump_field (key v : List Char) : List Char :=
  json_string key ++ ':' :: ' ' :: json_string v

/-- `json.dumps` rendering (at indent level 1) of one record of
`student_data.to_dict('records')`, fields in CSV column order. -/
def dump_record (r : StudentRecord) : List Char :=
  lbrace :: nl4 ++ dump_field "name".toList r.name
  ++ ',' :: nl4 ++ dump_field "current_company".toList r.current_company
  ++ ',' :: nl4 ++ dump_field "current_role".toList r.current_role
  ++ ',' :: nl4 ++ dump_field "past_companies".toList r.past_companies
  ++ ',' :: nl4 ++ dump_field "industries".toList r.industries
  ++ ',' :: nl4 ++ dump_field "contact".toList r.contact
  ++ nl2 ++ [rbrace]

/-- `context = json.dumps(students_context, indent=2)`: the serialized
record set placed into the prompt. -/
def json_dumps_records : List StudentRecord → List Char
  | [] => ['[', ']']
  | r :: rs =>
    '[' :: nl2 ++ dump_record r
    ++ (rs.map (fun x => ',' :: nl2 ++ dump_record x)).flatten
    ++ '\n' :: [']']

/-- Text of the f-string `user_prompt` before `{context}`. -/
def prompt_header : List Char :=
  "Here's our current MSBA student database:\n\n".toList

/-- Text of the f-string `user_prompt` between `{context}` and
`{user_question}`. -/
def prompt_mid : List Char :=
  "\n\nUser question: ".toList

/-- Text of the f-string `user_prompt` after `{user_question}`. -/
def prompt_tail : List Char :=
  "\n\nPlease search through the students and provide helpful recommendations for who they should connect with based on their question.".toList

/-- The `user_prompt` string built by `query_claude`. -/
def build_user_prompt (user_question : List Char) (student_data : List StudentRecord) : List Char :=
  prompt_header ++ json_dumps_records student_data ++ prompt_mid ++ user_question ++ prompt_tail

/-- The constant `SYSTEM_PROMPT` passed on every upstream call. -/
def SYSTEM_PROMPT : List Char :=
  "You are \"Hoos Who?\" - a helpful assistant for UVA Darden MSBA students looking to connect with classmates based on career backgrounds.\n\nYou have access to a database of MSBA student profiles with their:\n- Current company and role\n- Past work experience\n- Industries they've worked in\n- Contact information\n- Brief bios\n\nWhen a user asks a question, search through the student data and provide helpful matches. Be friendly, concise, and always include:\n1. Student name(s) that match their query\n2. Why they're a good match\n3. Their current role and company\n4. Relevant past experience\n5. How to contact them\n\nIf multiple students match, list the top 2-3 most relevant ones. Always maintain a friendly, collegial tone - these are classmates helping classmates!\n\nFormat your responses in a clear, scannable way. Use phrases like \"Great question!\" or \"Here's who I'd recommend reaching out to:\" to keep it conversational.".toList

/-- The fixed user-facing fallback returned when the upstream call
raises. -/
def fallback_message : List Char :=
  "I'm having trouble processing your request right now. Please try again in a moment. If this continues, please contact support.".toList

/-- The payload of one `client.messages.create(...)` call. -/
structure ApiCall where
  model_name : List Char
  max_tokens : Nat
  system : List Char
  user_message : List Char
deriving DecidableEq

/-- Result of one upstream call as observed at the call site: either the
model's text (`message.content[0].text`) or a raised exception. -/
inductive UpstreamResult where
  | ok (text : List Char)
  | exn
deriving DecidableEq

/-- The exception with which `st.stop()` aborts the script run
(Streamlit's `StopException`), raised by `get_claude_client` when
`ANTHROPIC_API_KEY` is absent from the environment. -/
inductive StopExn where
  | configMissing
deriving DecidableEq

/-- The `client.messages.create(...)` payload built by `query_claude`
for a given question and dataset: the fixed model name, the fixed token
ceiling, the fixed system instruction, and the `user_prompt`. -/
def api_call (user_question : List Char) (student_data : List StudentRecord) : ApiCall :=
  { model_name := "claude-sonnet-4-20250514".toList
    max_tokens := 1000
    system := SYSTEM_PROMPT
    user_message := build_user_prompt user_question student_data }

/-- The text the dispatcher hands back for a given upstream outcome: the
model's text on success, `fallback_message` when the call raised. -/
def upstream_text : UpstreamResult → List Char
  | .ok t => t
  | .exn => fallback_message

/-- The dispatcher `query_claude`.  `key_present` states whether
`ANTHROPIC_API_KEY` is set; `upstream` is the hosted model, mapping a
call payload to its outcome.  `get_claude_client` runs first and outside
the `try`: with the key absent it raises (`st.stop`), and the exception
propagates.  Otherwise the prompt is built and one call issued inside
`try/except`: the model's text is returned on success and
`fallback_message` on any upstream exception.  The second component
collects the upstream calls actually dispatched. -/
def query_claude (key_present : Bool) (upstream : ApiCall → UpstreamResult)
    (user_question : List Char) (student_data : List StudentRecord) :
    Except StopExn (List Char) × List ApiCall :=
  if key_present then
    match upstream (api_call user_question student_data) with
    | .ok t => (.ok t, [api_call user_question student_data])
    | .exn => (.ok fallback_message, [api_call user_question student_data])
  else (.error .configMissing, [])

/-- Role of a transcript entry. -/
inductive Role where
  | user
  | assistant
deriving DecidableEq

/-- One entry of `st.session_state.messages`. -/
structure ChatMessage where
  role : Role
  content : List Char
deriving DecidableEq

/-- The per-session state touched by the chat handler:
`st.session_state.messages` and `st.session_state.query_times`. -/
structure Session where
  messages : List ChatMessage
  query_times : List Int
deriving DecidableEq

/-- How one run of the `if user_input:` block ends. -/
inductive HandlerOutcome where
  | no_input
  | invalid_input
  | rate_limited
  | stopped_config
  | completed
deriving DecidableEq

/-- The chat-input handler (the `if user_input:` block at the bottom of
`app.py`): sanitize, validate length, rate-limit, append the user
message, call `query_claude`, append the assistant message.  Returns the
outcome, the session state after the run, and the upstream calls
dispatched. -/
def handle_user_input (now : Int) (key_present : Bool) (upstream : ApiCall → UpstreamResult)
    (raw : List Char) (student_data : List StudentRecord) (s : Session) :
    HandlerOutcome × Session × List ApiCall :=
  if raw.isEmpty then (.no_input, s, [])
  else if (sanitize_input (.pystr raw)).isEmpty || (sanitize_input (.pystr raw)).length < 3 then
    (.invalid_input, s, [])
  else
    match check_rate_limit now s.query_times with
    | (false, pruned) => (.rate_limited, { s with query_times := pruned }, [])
    | (true, newTimes) =>
      match query_claude key_present upstream (sanitize_input (.pystr raw)) student_data with
      | (.error _, calls) =>
        (.stopped_config,
         { messages := s.messages ++ [⟨Role.user, sanitize_input (.pystr raw)⟩],
           query_times := newTimes }, calls)
      | (.ok resp, calls) =>
        (.completed,
         { messages := s.messages ++ [⟨Role.user, sanitize_input (.pystr raw)⟩,
                                      ⟨Role.assistant, resp⟩],
           query_times := newTimes }, calls)

/-- A one-record dataset whose `current_company` is ICF, used as the
concrete dataset of the specification's scenario. -/
def demo_data : List StudentRecord :=
  [⟨"Alice Smith".toList, "ICF".toList, "Consultant".toList,
    "Deloitte".toList, "Consulting".toList, "alice@example.com".toList⟩]

/-- A pattern is found at the front of `pat ++ t`. -/
theorem leadsWith_append_self (p t : List Char) : leadsWith p (p ++ t) = true := by
  induction p with
  | nil => rfl
  | cons c cs ih => simp [leadsWith, ih]

/-- A match at the front of `s` is an occurrence in `s`. -/
theorem containsSub_of_leadsWith (pat s : List Char) (h : leadsWith pat s = true) :
    containsSub pat s = true := by
  cases s with
  | nil => simpa [containsSub] using h
  | cons c rest => simp [containsSub, h]

/-- An occurrence in the tail is an occurrence. -/
theorem containsSub_cons (pat : List Char) (c : Char) (rest : List Char)
    (h : containsSub pat rest = true) : containsSub pat (c :: rest) = true := by
  simp [containsSub, h]

/-- A string obtained by wrapping `q` between `a` and `b` contains `q`. -/
theorem containsSub_append_middle (a q b : List Char) : containsSub q (a ++ q ++ b) = true := by
  induction a with
  | nil => exact containsSub_of_leadsWith q (q ++ b) (leadsWith_append_self q b)
  | cons c cs ih => simpa using containsSub_cons q c (cs ++ q ++ b) (by simpa using ih)

/-- Python's `replace` never lengthens a string (any fuel). -/
theorem removeAllF_length_le (pat : List Char) :
    ∀ (n : Nat) (s : List Char), (removeAllF pat n s).length ≤ s.length := by
  intro n
  induction n with
  | zero => intro s; cases s <;> simp [removeAllF]
  | succ n ih =>
    intro s
    cases s with
    | nil => simp [removeAllF]
    | cons c rest =>
      by_cases h : leadsWith pat (c :: rest) = true
      · calc (removeAllF pat (n + 1) (c :: rest)).length
            = (removeAllF pat n (rest.drop (pat.length - 1))).length := by
              simp [removeAllF, h]
          _ ≤ (rest.drop (pat.length - 1)).length := ih _
          _ ≤ rest.length := by simp [List.length_drop]
          _ ≤ (c :: rest).length := by simp
      · have hb : leadsWith pat (c :: rest) = false := by
          cases hx : leadsWith pat (c :: rest)
          · rfl
          · exact absurd hx h
        calc (removeAllF pat (n + 1) (c :: rest)).length
            = (c :: removeAllF pat n rest).length := by simp [removeAllF, hb]
          _ = (removeAllF pat n rest).length + 1 := by simp
          _ ≤ rest.length + 1 := by exact Nat.succ_le_succ (ih rest)
          _ = (c :: rest).length := by simp

/-- Python's `replace` is the identity when the pattern does not occur
(any fuel). -/
theorem removeAllF_of_not_contains (pat : List Char) :
    ∀ (n : Nat) (s : List Char), containsSub pat s = false → removeAllF pat n s = s := by
  intro n
  induction n with
  | zero => intro s _; cases s <;> simp [removeAllF]
  | succ n ih =>
    intro s h
    cases s with
    | nil => simp [removeAllF]
    | cons c rest =>
      have h2 : leadsWith pat (c :: rest) = false ∧ containsSub pat rest = false := by
        simpa [containsSub, Bool.or_eq_false_iff] using h
      simp [removeAllF, h2.1, ih rest h2.2]

/-- `removeAll` is the identity when the pattern does not occur. -/
theorem removeAll_of_not_contains (pat s : List Char) (h : containsSub pat s = false) :
    removeAll pat s = s :=
  removeAllF_of_not_contains pat s.length s h

/-- One sanitizer loop iteration is the identity when none of the three
casings of the pattern occurs. -/
theorem apply_pattern_of_not_contains (s pat : List Char)
    (h1 : containsSub pat s = false)
    (h2 : containsSub (pat.map Char.toLower) s = false)
    (h3 : containsSub (pat.map Char.toUpper) s = false) :
    apply_pattern s pat = s := by
  unfold apply_pattern
  rw [removeAll_of_not_contains pat s h1, removeAll_of_not_contains _ s h2,
    removeAll_of_not_contains _ s h3]

/-- The sanitizer's full pattern loop is the identity when no pattern
occurs in any of the three handled casings. -/
theorem foldl_apply_pattern_of_not_contains :
    ∀ (ps : List (List Char)) (s : List Char),
      (∀ p ∈ ps, containsSub p s = false ∧ containsSub (p.map Char.toLower) s = false
        ∧ containsSub (p.map Char.toUpper) s = false) →
      ps.foldl apply_pattern s = s := by
  intro ps
  induction ps with
  | nil => intro s _; rfl
  | cons p ps ih =>
    intro s h
    have hp := h p (by simp)
    have hs : apply_pattern s p = s := apply_pattern_of_not_contains s p hp.1 hp.2.1 hp.2.2
    simp only [List.foldl_cons, hs]
    exact ih s (fun q hq => h q (by simp [hq]))

/-- Pruning never lengthens the timestamp list. -/
theorem prune_times_length_le (now : Int) (times : List Int) :
    (prune_times now times).length ≤ times.length :=
  List.length_filter_le _ _

/-- Every entry surviving the prune is within the last hour. -/
theorem mem_prune_times {now t : Int} {times : List Int} (h : t ∈ prune_times now times) :
    now - t < 3600 := by
  have := List.mem_filter.mp h
  simpa using this.2

/-- One rate-limiter call keeps the stored list at 20 entries or fewer
whenever it was so before the call. -/
theorem check_rate_limit_length_le (now : Int) (times : List Int) (h : times.length ≤ 20) :
    ((check_rate_limit now times).2).length ≤ 20 := by
  unfold check_rate_limit
  by_cases hc : 20 ≤ (prune_times now times).length
  · simpa [hc] using le_trans (prune_times_length_le now times) h
  · have := prune_times_length_le now times
    simp [hc]
    omega

/-- Sessions reached by any sequence of rate-limiter calls hold at most
20 timestamps. -/
theorem foldl_rate_length_le :
    ∀ (attempts init : List Int), init.length ≤ 20 →
      (attempts.foldl (fun ts t => (check_rate_limit t ts).2) init).length ≤ 20 := by
  intro attempts
  induction attempts with
  | nil => intro init h; simpa using h
  | cons a as ih => intro init h; exact ih _ (check_rate_limit_length_le a init h)

/-- Claim C8: for every input, string or otherwise, the sanitizer output
has at most 500 characters, and non-string or empty input yields the
empty string. -/
theorem sanitize_output_bounded :
    ∀ v : PyInput, (sanitize_input v).length ≤ 500
      ∧ sanitize_input PyInput.nonstring = []
      ∧ sanitize_input (PyInput.pystr []) = [] := by
  intro v
  refine ⟨?_, rfl, rfl⟩
  cases v with
  | nonstring => simp [sanitize_input]
  | pystr s =>
    cases s with
    | nil => simp [sanitize_input]
    | cons c cs =>
      have : sanitize_input (PyInput.pystr (c :: cs))
          = (dangerous_patterns.foldl apply_pattern (c :: cs)).take 500 := by
        simp [sanitize_input]
      rw [this]
      simp [List.length_take]

/-- Claim C1 is false on the code: the input written as the mixed-case
string ScRiPt in angle brackets contains the denylisted substring
script-in-angle-brackets up to letter casing, yet the sanitizer returns
it unchanged, so the sanitizer output still contains that denylisted
substring up to letter casing. -/
theorem sanitize_mixed_case_counterexample :
    "<script>".toList ∈ dangerous_patterns
      ∧ containsSub "<script>".toList ("<ScRiPt>".toList.map Char.toLower) = true
      ∧ sanitize_input (PyInput.pystr "<ScRiPt>".toList) = "<ScRiPt>".toList
      ∧ containsSub "<script>".toList
          ((sanitize_input (PyInput.pystr "<ScRiPt>".toList)).map Char.toLower) = true := by
  decide

/-- Claim C1 amended: the sanitizer removes a denylisted pattern only in
its as-listed, all-lowercase and all-uppercase forms; an input in which
no pattern occurs in any of those three casings — in particular one
carrying a pattern only in mixed case — is returned unchanged except
for the 500-character cap. -/
theorem sanitize_three_casings_only (s : List Char)
    (h : ∀ p ∈ dangerous_patterns, containsSub p s = false
      ∧ containsSub (p.map Char.toLower) s = false
      ∧ containsSub (p.map Char.toUpper) s = false) :
    sanitize_input (PyInput.pystr s) = s.take 500 := by
  cases s with
  | nil => rfl
  | cons c cs =>
    have hf := foldl_apply_pattern_of_not_contains dangerous_patterns (c :: cs) h
    simp [sanitize_input, hf]

/-- Witness for the amended claim C1: a mixed-case script tag passes
through the sanitizer untouched. -/
theorem sanitize_three_casings_only_witness :
    sanitize_input (PyInput.pystr "<ScRiPt> ok".toList) = "<ScRiPt> ok".toList.take 500 :=
  sanitize_three_casings_only "<ScRiPt> ok".toList (by decide)

/-- Claim C5: each rate-limiter attempt prunes the stale entries first;
the attempt is accepted with the current time recorded exactly when the
pruned count is below 20, and a rejected attempt stores exactly the
pruned list, recording no timestamp. -/
theorem rate_limit_prune_then_decide (now : Int) (times : List Int) :
    ((check_rate_limit now times).1 = true ↔ (prune_times now times).length < 20)
      ∧ ((check_rate_limit now times).1 = true →
          (check_rate_limit now times).2 = prune_times now times ++ [now])
      ∧ ((check_rate_limit now times).1 = false →
          (check_rate_limit now times).2 = prune_times now times) := by
  unfold check_rate_limit
  by_cases h : 20 ≤ (prune_times now times).length
  · rw [if_pos h]
    refine ⟨by simp; omega, by simp, by simp⟩
  · rw [if_neg h]
    refine ⟨by simp; omega, by simp, by simp⟩

/-- Witness for claim C5: a fresh session accepts the attempt and stores
exactly the pruned list plus the new timestamp. -/
theorem rate_limit_prune_then_decide_witness :
    (check_rate_limit 0 ([] : List Int)).2 = prune_times 0 [] ++ [0] :=
  (rate_limit_prune_then_decide 0 []).2.1 (by decide)

/-- Claim C4: with 20 timestamps recorded inside the rolling hour the
next attempt is rejected; at a later time at which the oldest timestamp
has aged past one hour while the other 19 are still fresh, exactly one
further attempt is accepted — the attempt after it is rejected again. -/
theorem rate_limit_window_capacity (now later t0 : Int) (rest : List Int)
    (hlen : rest.length = 19)
    (hfresh : ∀ t ∈ t0 :: rest, now - t < 3600)
    (hold : 3600 ≤ later - t0)
    (hrest : ∀ t ∈ rest, later - t < 3600) :
    (check_rate_limit now (t0 :: rest)).1 = false
      ∧ (check_rate_limit later (t0 :: rest)).1 = true
      ∧ (check_rate_limit later ((check_rate_limit later (t0 :: rest)).2)).1 = false := by
  have hp1 : prune_times now (t0 :: rest) = t0 :: rest :=
    List.filter_eq_self.mpr (fun a ha => decide_eq_true (hfresh a ha))
  have hp2 : prune_times later (t0 :: rest) = rest := by
    unfold prune_times
    rw [List.filter_cons_of_neg, List.filter_eq_self.mpr (fun a ha => decide_eq_true (hrest a ha))]
    simp
    omega
  have hp3 : prune_times later (rest ++ [later]) = rest ++ [later] := by
    refine List.filter_eq_self.mpr (fun a ha => decide_eq_true ?_)
    rcases List.mem_append.mp ha with hx | hx
    · exact hrest a hx
    · have : a = later := by simpa using hx
      omega
  have hacc : check_rate_limit later (t0 :: rest) = (true, rest ++ [later]) := by
    unfold check_rate_limit
    rw [hp2, if_neg (by omega)]
  refine ⟨?_, ?_, ?_⟩
  · unfold check_rate_limit
    rw [hp1, if_pos (by simp [hlen])]
  · rw [hacc]
  · rw [hacc]
    unfold check_rate_limit
    rw [hp3, if_pos (by simp [hlen])]

/-- Witness for claim C4 at a concrete window: 20 timestamps inside the
hour reject the attempt at time 10000; at time 10700 the oldest (7000)
has aged out, one attempt is accepted, and the next is rejected. -/
theorem rate_limit_window_capacity_witness :
    (check_rate_limit 10000 (7000 :: List.replicate 19 (8000 : Int))).1 = false
      ∧ (check_rate_limit 10700 (7000 :: List.replicate 19 (8000 : Int))).1 = true
      ∧ (check_rate_limit 10700
          ((check_rate_limit 10700 (7000 :: List.replicate 19 (8000 : Int))).2)).1 = false :=
  rate_limit_window_capacity 10000 10700 7000 (List.replicate 19 8000)
    (by simp) (by decide) (by decide) (by decide)

/-- Claim C9: after every rate-limiter call in a session — any call
history starting from the fresh session — the stored timestamp list
holds only entries within the last hour of that call and at most 20 of
them. -/
theorem rate_limit_invariant (history : List Int) (now : Int) :
    (∀ t ∈ (check_rate_limit now (run_attempts history)).2, now - t < 3600)
      ∧ ((check_rate_limit now (run_attempts history)).2).length ≤ 20 := by
  constructor
  · intro t ht
    by_cases hc : 20 ≤ (prune_times now (run_attempts history)).length
    · have he : (check_rate_limit now (run_attempts history)).2
          = prune_times now (run_attempts history) := by
        unfold check_rate_limit
        rw [if_pos hc]
      rw [he] at ht
      exact mem_prune_times ht
    · have he : (check_rate_limit now (run_attempts history)).2
          = prune_times now (run_attempts history) ++ [now] := by
        unfold check_rate_limit
        rw [if_neg hc]
      rw [he] at ht
      rcases List.mem_append.mp ht with hx | hx
      · exact mem_prune_times hx
      · have : t = now := by simpa using hx
        rw [this]
        omega
  · exact check_rate_limit_length_le now _ (foldl_rate_length_le history [] (by simp))

/-- Witness for claim C9: after one accepted attempt at time 0 and a
second call at time 1, the entry 0 is within the hour and the stored
list is within the cap. -/
theorem rate_limit_invariant_witness :
    ((1 : Int) - 0 < 3600) ∧ ((check_rate_limit 1 (run_attempts [0])).2).length ≤ 20 :=
  ⟨(rate_limit_invariant [0] 1).1 0 (by decide), (rate_limit_invariant [0] 1).2⟩

/-- Reduction of the handler on an accepted question (sanitized form
non-empty and at least three characters, rate window not full): the
user entry is appended and the dispatcher runs; with the credential it
completes with one call dispatched, without it the hard stop fires
after the user entry was appended and no call is dispatched. -/
theorem handle_user_input_accepted (now : Int) (key : Bool) (u : ApiCall → UpstreamResult)
    (raw : List Char) (d : List StudentRecord) (s : Session)
    (h1 : sanitize_input (PyInput.pystr raw) ≠ [])
    (h2 : 3 ≤ (sanitize_input (PyInput.pystr raw)).length)
    (h3 : (prune_times now s.query_times).length < 20) :
    handle_user_input now key u raw d s =
      if key then
        (HandlerOutcome.completed,
         { messages := s.messages ++ [⟨Role.user, sanitize_input (PyInput.pystr raw)⟩,
             ⟨Role.assistant, upstream_text (u (api_call (sanitize_input (PyInput.pystr raw)) d))⟩],
           query_times := prune_times now s.query_times ++ [now] },
         [api_call (sanitize_input (PyInput.pystr raw)) d])
      else
        (HandlerOutcome.stopped_config,
         { messages := s.messages ++ [⟨Role.user, sanitize_input (PyInput.pystr raw)⟩],
           query_times := prune_times now s.query_times ++ [now] },
         []) := by
  have hraw : raw.isEmpty = false := by
    cases raw with
    | nil => exact absurd rfl h1
    | cons _ _ => rfl
  have hse : (sanitize_input (PyInput.pystr raw)).isEmpty = false := by
    cases hs : sanitize_input (PyInput.pystr raw) with
    | nil => exact absurd hs h1
    | cons _ _ => rfl
  have hlt : ¬ ((sanitize_input (PyInput.pystr raw)).length < 3) := by omega
  have hrl : check_rate_limit now s.query_times
      = (true, prune_times now s.query_times ++ [now]) := by
    unfold check_rate_limit
    rw [if_neg (by omega)]
  simp only [handle_user_input, hraw, hse, hrl, decide_eq_false hlt, Bool.or_self,
    Bool.false_eq_true, if_false]
  cases key with
  | false => simp [query_claude]
  | true =>
    cases hu : u (api_call (sanitize_input (PyInput.pystr raw)) d) with
    | ok t => simp [query_claude, hu, upstream_text]
    | exn => simp [query_claude, hu, upstream_text]

/-- Claim C2 is false on the code: with the credential absent, the stop
exception raised inside get_claude_client — during the dispatcher's
work, before the try block — propagates out of query_claude instead of
being converted into the fallback return. -/
theorem dispatcher_stop_propagates_counterexample :
    (query_claude false (fun _ => UpstreamResult.exn) "Who works at ICF?".toList []).1
        = Except.error StopExn.configMissing
      ∧ (query_claude false (fun _ => UpstreamResult.exn) "Who works at ICF?".toList []).1
        ≠ Except.ok fallback_message := by
  refine ⟨rfl, ?_⟩
  intro h
  simp [query_claude] at h

/-- Claim C2 amended: exceptions raised by the upstream call inside the
dispatcher's try block never escape — the dispatcher returns the model's
text on success and the fixed fallback on an upstream exception; only
the missing-credential hard stop, raised before the try block, escapes
the dispatcher. -/
theorem dispatcher_catches_upstream (u : ApiCall → UpstreamResult)
    (q : List Char) (d : List StudentRecord) :
    (u (api_call q d) = UpstreamResult.exn →
        (query_claude true u q d).1 = Except.ok fallback_message)
      ∧ (∀ t, u (api_call q d) = UpstreamResult.ok t →
          (query_claude true u q d).1 = Except.ok t)
      ∧ (∃ r, (query_claude true u q d).1 = Except.ok r) := by
  refine ⟨fun h => by simp [query_claude, h], fun t ht => by simp [query_claude, ht], ?_⟩
  cases hu : u (api_call q d) with
  | ok t => exact ⟨t, by simp [query_claude, hu]⟩
  | exn => exact ⟨fallback_message, by simp [query_claude, hu]⟩

/-- Witness for the amended claim C2: an upstream exception yields the
fallback text through the ordinary return path. -/
theorem dispatcher_catches_upstream_witness :
    (query_claude true (fun _ => UpstreamResult.exn) "Who works at ICF?".toList []).1
      = Except.ok fallback_message :=
  (dispatcher_catches_upstream (fun _ => UpstreamResult.exn) "Who works at ICF?".toList []).1 rfl

/-- Claim C3 is false on the code: nothing reads the credential at
startup, so with the credential absent a chat interaction is still
reachable — the handler sanitizes the question, spends rate-limit
capacity and appends the user message to the transcript before the
credential check stops the script. -/
theorem credential_checked_late_counterexample :
    handle_user_input 0 false (fun _ => UpstreamResult.exn) "Who works at ICF?".toList []
        ⟨[], []⟩
      = (HandlerOutcome.stopped_config,
         ⟨[⟨Role.user, "Who works at ICF?".toList⟩], [0]⟩, []) := by
  decide

/-- Claim C3 amended: the credential check happens at query time inside
the dispatcher, not at startup: with the credential absent, an accepted
question is sanitized, rate-limited and its user entry appended to the
transcript, then the hard stop fires with the operator-facing error and
no upstream call is ever dispatched. -/
theorem credential_missing_blocks_upstream (now : Int) (u : ApiCall → UpstreamResult)
    (raw : List Char) (d : List StudentRecord) (s : Session)
    (h1 : sanitize_input (PyInput.pystr raw) ≠ [])
    (h2 : 3 ≤ (sanitize_input (PyInput.pystr raw)).length)
    (h3 : (prune_times now s.query_times).length < 20) :
    handle_user_input now false u raw d s
      = (HandlerOutcome.stopped_config,
         { messages := s.messages ++ [⟨Role.user, sanitize_input (PyInput.pystr raw)⟩],
           query_times := prune_times now s.query_times ++ [now] },
         []) := by
  simpa using handle_user_input_accepted now false u raw d s h1 h2 h3

/-- Witness for the amended claim C3: the concrete scenario question on
the empty session with the credential absent. -/
theorem credential_missing_blocks_upstream_witness :
    handle_user_input 5 false (fun _ => UpstreamResult.exn) "Who works at ICF?".toList
        demo_data ⟨[], []⟩
      = (HandlerOutcome.stopped_config,
         { messages := [] ++ [⟨Role.user, sanitize_input (PyInput.pystr "Who works at ICF?".toList)⟩],
           query_times := prune_times 5 [] ++ [5] },
         []) :=
  credential_missing_blocks_upstream 5 (fun _ => UpstreamResult.exn)
    "Who works at ICF?".toList demo_data ⟨[], []⟩ (by decide) (by decide) (by decide)

/-- Claim C6: an accepted question with the credential configured
dispatches exactly one upstream call; its payload embeds the full
serialized record set and the question text verbatim; and on upstream
success exactly two transcript entries are appended, the user entry
then the assistant entry. -/
theorem accepted_query_dispatch (now : Int) (u : ApiCall → UpstreamResult)
    (raw : List Char) (d : List StudentRecord) (s : Session)
    (h1 : sanitize_input (PyInput.pystr raw) ≠ [])
    (h2 : 3 ≤ (sanitize_input (PyInput.pystr raw)).length)
    (h3 : (prune_times now s.query_times).length < 20) :
    (handle_user_input now true u raw d s).2.2
        = [api_call (sanitize_input (PyInput.pystr raw)) d]
      ∧ containsSub (json_dumps_records d)
          (api_call (sanitize_input (PyInput.pystr raw)) d).user_message = true
      ∧ containsSub (sanitize_input (PyInput.pystr raw))
          (api_call (sanitize_input (PyInput.pystr raw)) d).user_message = true
      ∧ (∀ t, u (api_call (sanitize_input (PyInput.pystr raw)) d) = UpstreamResult.ok t →
          handle_user_input now true u raw d s
            = (HandlerOutcome.completed,
               { messages := s.messages ++ [⟨Role.user, sanitize_input (PyInput.pystr raw)⟩,
                   ⟨Role.assistant, t⟩],
                 query_times := prune_times now s.query_times ++ [now] },
               [api_call (sanitize_input (PyInput.pystr raw)) d])) := by
  have hred := handle_user_input_accepted now true u raw d s h1 h2 h3
  simp only [if_pos] at hred
  refine ⟨by rw [hred], ?_, ?_, ?_⟩
  · have := containsSub_append_middle (prompt_header) (json_dumps_records d)
      (prompt_mid ++ sanitize_input (PyInput.pystr raw) ++ prompt_tail)
    simpa [api_call, build_user_prompt, List.append_assoc] using this
  · have := containsSub_append_middle
      (prompt_header ++ json_dumps_records d ++ prompt_mid)
      (sanitize_input (PyInput.pystr raw)) prompt_tail
    simpa [api_call, build_user_prompt, List.append_assoc] using this
  · intro t ht
    rw [hred, ht]
    rfl

/-- Witness for claim C6: the scenario question against the one-record
ICF dataset dispatches exactly the one expected call, whose user message
contains the question verbatim. -/
theorem accepted_query_dispatch_witness :
    (handle_user_input 0 true (fun _ => UpstreamResult.ok "ans".toList)
        "Who works at ICF?".toList demo_data ⟨[], []⟩).2.2
        = [api_call (sanitize_input (PyInput.pystr "Who works at ICF?".toList)) demo_data]
      ∧ containsSub (sanitize_input (PyInput.pystr "Who works at ICF?".toList))
          (api_call (sanitize_input (PyInput.pystr "Who works at ICF?".toList))
            demo_data).user_message = true := by
  have h := accepted_query_dispatch 0 (fun _ => UpstreamResult.ok "ans".toList)
    "Who works at ICF?".toList demo_data ⟨[], []⟩ (by decide) (by decide) (by decide)
  exact ⟨h.1, h.2.2.1⟩

/-- Claim C7: an input whose sanitized form is empty or shorter than
three characters is turned away before anything happens: no upstream
call is dispatched, the transcript is unchanged and no rate-limit
timestamp is recorded — the session state is exactly as before. -/
theorem short_input_rejected (now : Int) (key : Bool) (u : ApiCall → UpstreamResult)
    (raw : List Char) (d : List StudentRecord) (s : Session)
    (h : sanitize_input (PyInput.pystr raw) = []
      ∨ (sanitize_input (PyInput.pystr raw)).length < 3) :
    (handle_user_input now key u raw d s).2.1 = s
      ∧ (handle_user_input now key u raw d s).2.2 = [] := by
  by_cases hraw : raw.isEmpty = true
  · simp [handle_user_input, hraw]
  · have hcond : ((sanitize_input (PyInput.pystr raw)).isEmpty
        || decide ((sanitize_input (PyInput.pystr raw)).length < 3)) = true := by
      rcases h with h | h
      · simp [h]
      · simp [h]
    simp [handle_user_input, hraw, hcond]

/-- Witness for claim C7: the two-character input hi is rejected with
session state untouched and no call dispatched. -/
theorem short_input_rejected_witness :
    (handle_user_input 0 true (fun _ => UpstreamResult.ok "ans".toList) "hi".toList
        demo_data ⟨[], []⟩).2.1 = ⟨[], []⟩
      ∧ (handle_user_input 0 true (fun _ => UpstreamResult.ok "ans".toList) "hi".toList
          demo_data ⟨[], []⟩).2.2 = [] :=
  short_input_rejected 0 true (fun _ => UpstreamResult.ok "ans".toList) "hi".toList
    demo_data ⟨[], []⟩ (Or.inr (by decide))

/-- Claim C10: after any handler run, every transcript entry either was
already there, is an assistant entry, or carries exactly the sanitizer's
output as content — the raw typed text itself is never stored, so
whatever the sanitizer stripped cannot appear in a user entry. -/
theorem transcript_stores_sanitized (now : Int) (key : Bool) (u : ApiCall → UpstreamResult)
    (raw : List Char) (d : List StudentRecord) (s : Session) :
    ∀ m ∈ (handle_user_input now key u raw d s).2.1.messages,
      m ∈ s.messages ∨ m.role = Role.assistant
        ∨ m.content = sanitize_input (PyInput.pystr raw) := by
  intro m hm
  unfold handle_user_input at hm
  split at hm
  · exact Or.inl hm
  · split at hm
    · exact Or.inl hm
    · split at hm
      · exact Or.inl hm
      · split at hm
        · rcases List.mem_append.mp hm with hx | hx
          · exact Or.inl hx
          · have : m = ⟨Role.user, sanitize_input (PyInput.pystr raw)⟩ := by simpa using hx
            rw [this]
            exact Or.inr (Or.inr rfl)
        · rcases List.mem_append.mp hm with hx | hx
          · exact Or.inl hx
          · simp only [List.mem_cons, List.not_mem_nil, or_false] at hx
            rcases hx with hy | hy
            · rw [hy]
              exact Or.inr (Or.inr rfl)
            · rw [hy]
              exact Or.inr (Or.inl rfl)

/-- Witness for claim C10: a raw input carrying a script tag is stored
in the transcript only in its sanitized form. -/
theorem transcript_stores_sanitized_witness :
    ChatMessage.mk Role.user "hi there".toList
        ∈ (handle_user_input 0 true (fun _ => UpstreamResult.ok "ok".toList)
            "<script>hi there".toList [] ⟨[], []⟩).2.1.messages
      ∧ (ChatMessage.mk Role.user "hi there".toList ∈ (⟨[], []⟩ : Session).messages
          ∨ (ChatMessage.mk Role.user "hi there".toList).role = Role.assistant
          ∨ (ChatMessage.mk Role.user "hi there".toList).content
              = sanitize_input (PyInput.pystr "<script>hi there".toList)) :=
  ⟨by decide,
   transcript_stores_sanitized 0 true (fun _ => UpstreamResult.ok "ok".toList)
     "<script>hi there".toList [] ⟨[], []⟩
     (ChatMessage.mk Role.user "hi there".toList) (by decide)⟩
